import Mathlib

/-!
Verification of the y86 instruction-set emulator (Rust crate, files
src/lib.rs, src/memory.rs, src/register.rs, src/opcode.rs, src/region.rs,
src/vm.rs) against its natural-language specification.

Shallow embedding conventions:
  - The Rust machine word `i64` (type aliases `Word` and `Block` in lib.rs)
    is modelled as `Int`; every operation that truncates or wraps in Rust
    does so explicitly here (`wrap64`, `uToI64`, `toU64`).  The numeric
    literals 9223372036854775808 and 18446744073709551616 are 2 to the 63
    and 2 to the 64 respectively.
  - `u8` values (instruction bytes and memory bytes) are modelled as `Nat`;
    the Rust type system guarantees they are below 256, and every place the
    bound matters states it explicitly.
  - `usize` is modelled as `Nat` (a 64 bit target is assumed, as in the
    crate, so the cast `i64 as usize` is reinterpretation modulo 2 to 64).
  - The Rust release-mode wrapping semantics is used for the plain `+` and
    `-` on `i64` (stack pointer adjustment and effective-address formation).
    Division overflow (`i64::MIN / -1` and `i64::MIN % -1`) panics in Rust
    in every build mode; a panic is modelled as the distinct outcome
    `Res.crash`, separate from the `Result::Err` channel.
  - The `Vec<u8>` buffer of `MainMemory` is created once with length
    `MEMORY_SIZE` and never resized, so `self.bytes.len()` is embedded as
    the constant `MEMORY_SIZE`.  The byte store itself is a function
    `Nat → Nat`, written little-endian exactly as the raw pointer
    read/write does on the little-endian targets the crate supports.
    The bounds test `addr + BLOCK_SIZE > self.bytes.len()` adds two usize
    values: when that addition overflows (addr at or above 2 to the 64
    minus 8) a debug build panics, and a release build wraps the sum past
    the check and then performs an out-of-bounds access, which is
    undefined behavior; both abnormal outcomes are modelled as the
    distinct crash outcome of `MemRes`, never as a returned Result.
  - `Vm::step` takes `&mut self` and mutates in place; the embedding
    threads the machine state through a state-plus-error monad `M` whose
    error outcome carries the machine state at the moment of the early
    return, mirroring the mutations already committed via `&mut`.
-/

namespace Y86

/-- Two to the 63, the magnitude of the smallest i64. -/
def i64HalfMod : Int := 9223372036854775808

/-- Two to the 64, the modulus of i64 wraparound arithmetic. -/
def i64Mod : Int := 18446744073709551616

/-- Smallest value of the Rust type i64. -/
def i64Min : Int := -9223372036854775808

/-- Proposition that an integer is representable as a Rust i64.  Register
slots, memory words and immediates always satisfy this in the Rust program
because their type is i64; the embedding states it where it is needed. -/
def isI64 (x : Int) : Prop := -9223372036854775808 ≤ x ∧ x < 9223372036854775808

instance (x : Int) : Decidable (isI64 x) := by unfold isI64; infer_instance

/-- Wraparound of an exact integer result into the i64 range; this is what
the Rust overflowing_add / overflowing_sub / overflowing_mul and the
release-mode `+`/`-` compute. -/
def wrap64 (x : Int) : Int := (x + 9223372036854775808) % 18446744073709551616 - 9223372036854775808

/-- Reinterpretation of an unsigned 64 bit value (a Nat below 2 to the 64)
as a signed i64, as the raw-pointer read of 8 little-endian bytes and
`i64::from_le_bytes` do. -/
def uToI64 (u : Nat) : Int :=
  if u < 9223372036854775808 then (u : Int) else (u : Int) - 18446744073709551616

/-- Reinterpretation of an i64 as unsigned 64 bits; this is the Rust cast
`as usize` on a 64 bit target, and also the two-complement bit pattern used
for the bitwise operations and the little-endian store. -/
def toU64 (x : Int) : Nat := (x % 18446744073709551616).toNat

/-- Cast `usize as i64` (used for the instruction pointer pushed by call). -/
def usizeToI64 (n : Nat) : Int := uToI64 (n % 18446744073709551616)

/-- Bitwise and of two i64 values through their two-complement bit patterns
(Rust `&` on i64). -/
def i64And (a b : Int) : Int := uToI64 (Nat.land (toU64 a) (toU64 b))

/-- Bitwise xor of two i64 values through their two-complement bit patterns
(Rust `^` on i64). -/
def i64Xor (a b : Int) : Int := uToI64 (Nat.xor (toU64 a) (toU64 b))

/-- Little-endian combination of 8 bytes into an unsigned value, the shared
core of `Block::from_le_bytes` and of the aligned memory read. -/
def leSum (b0 b1 b2 b3 b4 b5 b6 b7 : Nat) : Nat :=
  b0 + 256 * b1 + 65536 * b2 + 16777216 * b3 + 4294967296 * b4
    + 1099511627776 * b5 + 281474976710656 * b6 + 72057594037927936 * b7

/-- Error type of src/memory.rs. -/
inductive MemError where
  | invalidAddress (addr : Nat)
  | unalignedAccess (addr : Nat)
deriving DecidableEq

/-- Outcome of one MainMemory operation: a returned value, a returned
contract error, or the abnormal outcome when the usize addition of the
bounds test overflows - an overflow panic in a debug build, an
out-of-bounds access (undefined behavior) in a release build.  Neither
abnormal form ever reaches the caller as a Result. -/
inductive MemRes (α : Type) where
  | ok (a : α)
  | err (e : MemError)
  | crash
deriving DecidableEq

/-- Boolean test for the abnormal outcome of a memory operation. -/
def MemRes.isCrash {α : Type} : MemRes α → Bool
  | .crash => true
  | _ => false

/-- Error type of src/opcode.rs. -/
inductive OpcodeError where
  | invalidOpcode (b : Nat)
deriving DecidableEq

/-- Error type of src/register.rs. -/
inductive RegError where
  | invalidRegister (b : Nat)
deriving DecidableEq

/-- Error type of src/vm.rs; the `#[from]` conversions become explicit
constructors. -/
inductive Error where
  | machineHalted
  | endOfInstructions (ip : Nat)
  | divisionByZero
  | opcodeError (e : OpcodeError)
  | memoryError (e : MemError)
  | registerError (e : RegError)
deriving DecidableEq

instance {ε α : Type} [DecidableEq ε] [DecidableEq α] : DecidableEq (Except ε α) := fun a b =>
  match a, b with
  | .ok x, .ok y =>
      if h : x = y then .isTrue (by rw [h]) else .isFalse (by intro hc; cases hc; exact h rfl)
  | .error x, .error y =>
      if h : x = y then .isTrue (by rw [h]) else .isFalse (by intro hc; cases hc; exact h rfl)
  | .ok _, .error _ => .isFalse (by intro hc; cases hc)
  | .error _, .ok _ => .isFalse (by intro hc; cases hc)

/-- Boolean test for the error side of an Except value. -/
def exceptIsErr {ε α : Type} : Except ε α → Bool
  | .error _ => true
  | .ok _ => false

/-- MainMemory::MEMORY_SIZE, 64 KiB; the zero-filled Vec is created with
this length and never resized, so bytes.len() is always this constant. -/
def MEMORY_SIZE : Nat := 65536

/-- BLOCK_SIZE from src/lib.rs: size_of::<i64>() = 8. -/
def BLOCK_SIZE : Nat := 8

/-- Byte store of MainMemory; bytes are Nats (always below 256 for any
store reachable from the zero-filled initial state). -/
structure MainMemory where
  bytes : Nat → Nat

/-- Little-endian store of the 8 bytes of an unsigned 64 bit value at a
given address, the effect of the raw-pointer `block.write(value)`. -/
def storeLe (b : Nat → Nat) (addr u : Nat) : Nat → Nat := fun i =>
  if i = addr then u % 256
  else if i = addr + 1 then u / 256 % 256
  else if i = addr + 2 then u / 65536 % 256
  else if i = addr + 3 then u / 16777216 % 256
  else if i = addr + 4 then u / 4294967296 % 256
  else if i = addr + 5 then u / 1099511627776 % 256
  else if i = addr + 6 then u / 281474976710656 % 256
  else if i = addr + 7 then u / 72057594037927936 % 256
  else b i

/-- Little-endian read of the 8 bytes at an address, combined to an
unsigned value; the raw-pointer `block.read()` on a little-endian target. -/
def leCombine (b : Nat → Nat) (addr : Nat) : Nat :=
  leSum (b addr) (b (addr + 1)) (b (addr + 2)) (b (addr + 3))
    (b (addr + 4)) (b (addr + 5)) (b (addr + 6)) (b (addr + 7))

/-- MainMemory::read: alignment check first, then the bounds check
`addr + BLOCK_SIZE > bytes.len()`.  The addition in the bounds check is a
usize addition: when it overflows (addr at or above 2 to the 64 minus 8,
only reachable for aligned addresses since the alignment check comes
first) the operation is abnormal - panic in debug, wrap followed by an
out-of-bounds access in release - modelled as crash; otherwise the usize
sum equals the Nat sum and the comparison is faithful.  On success the
aligned 8 byte little-endian load is interpreted as i64. -/
def MainMemory.read (m : MainMemory) (addr : Nat) : MemRes Int :=
  if addr % BLOCK_SIZE ≠ 0 then .err (.unalignedAccess addr)
  else if 18446744073709551616 ≤ addr + BLOCK_SIZE then .crash
  else if addr + BLOCK_SIZE > MEMORY_SIZE then .err (.invalidAddress addr)
  else .ok (uToI64 (leCombine m.bytes addr))

/-- MainMemory::write: same checks in the same order (including the same
usize overflow behavior of the bounds test), then the aligned 8 byte
little-endian store of the two-complement pattern of the word. -/
def MainMemory.write (m : MainMemory) (addr : Nat) (value : Int) : MemRes MainMemory :=
  if addr % BLOCK_SIZE ≠ 0 then .err (.unalignedAccess addr)
  else if 18446744073709551616 ≤ addr + BLOCK_SIZE then .crash
  else if addr + BLOCK_SIZE > MEMORY_SIZE then .err (.invalidAddress addr)
  else .ok ⟨storeLe m.bytes addr (toU64 value)⟩

/-- The 15 registers of src/register.rs. -/
inductive Register where
  | rax | rcx | rdx | rbx | rsp | rbp | rsi | rdi
  | r8 | r9 | r10 | r11 | r12 | r13 | r14
deriving DecidableEq

/-- Register::try_from on a (nibble-sized) byte value; 15 and above are
rejected with InvalidRegister carrying the offending value. -/
def Register.tryFrom (byte : Nat) : Except RegError Register :=
  match byte with
  | 0 => .ok .rax
  | 1 => .ok .rcx
  | 2 => .ok .rdx
  | 3 => .ok .rbx
  | 4 => .ok .rsp
  | 5 => .ok .rbp
  | 6 => .ok .rsi
  | 7 => .ok .rdi
  | 8 => .ok .r8
  | 9 => .ok .r9
  | 10 => .ok .r10
  | 11 => .ok .r11
  | 12 => .ok .r12
  | 13 => .ok .r13
  | 14 => .ok .r14
  | _ => .error (.invalidRegister byte)

/-- Condition codes for conditional moves and jumps (JCmovFun). -/
inductive JCmovFun where
  | lessEqual | less | equal | notEqual | greaterEqual | greater
deriving DecidableEq

/-- JCmovFun::try_from: sub-codes 1 through 6; everything else is
InvalidOpcode carrying the argument (the low nibble at the call sites). -/
def JCmovFun.tryFrom (byte : Nat) : Except OpcodeError JCmovFun :=
  match byte with
  | 1 => .ok .lessEqual
  | 2 => .ok .less
  | 3 => .ok .equal
  | 4 => .ok .notEqual
  | 5 => .ok .greaterEqual
  | 6 => .ok .greater
  | _ => .error (.invalidOpcode byte)

/-- Arithmetic function sub-codes (OpFun). -/
inductive OpFun where
  | add | sub | and | xor | mul | div | mod
deriving DecidableEq

/-- OpFun::try_from: sub-codes 0 through 6; everything else is
InvalidOpcode carrying the argument (the low nibble at the call site). -/
def OpFun.tryFrom (byte : Nat) : Except OpcodeError OpFun :=
  match byte with
  | 0 => .ok .add
  | 1 => .ok .sub
  | 2 => .ok .and
  | 3 => .ok .xor
  | 4 => .ok .mul
  | 5 => .ok .div
  | 6 => .ok .mod
  | _ => .error (.invalidOpcode byte)

/-- Decoded opcode variants. -/
inductive Opcode where
  | halt
  | nop
  | rrmovq
  | cmovxx (cond : JCmovFun)
  | irmovq
  | rmmovq
  | mrmovq
  | opq (f : OpFun)
  | jxx (cond : JCmovFun)
  | call
  | ret
  | pushq
  | popq
deriving DecidableEq

/-- Opcode::try_from: dispatch on the high nibble of the lead byte; the
families 0x2, 0x6 and 0x7 consult the low nibble through the sub-code
decoders, whose error carries the low nibble (not the full byte); a high
nibble above 0xB is InvalidOpcode carrying the full byte. -/
def Opcode.tryFrom (byte : Nat) : Except OpcodeError Opcode :=
  let high := byte / 16
  let low := byte % 16
  if high = 0 then .ok .halt
  else if high = 1 then .ok .nop
  else if high = 2 then
    (if low = 0 then .ok .rrmovq else (JCmovFun.tryFrom low).map Opcode.cmovxx)
  else if high = 3 then .ok .irmovq
  else if high = 4 then .ok .rmmovq
  else if high = 5 then .ok .mrmovq
  else if high = 6 then (OpFun.tryFrom low).map Opcode.opq
  else if high = 7 then (JCmovFun.tryFrom low).map Opcode.jxx
  else if high = 8 then .ok .call
  else if high = 9 then .ok .ret
  else if high = 10 then .ok .pushq
  else if high = 11 then .ok .popq
  else .error (.invalidOpcode byte)

/-- Register file: 15 word slots plus the three condition flags. -/
structure RegisterFile where
  registers : Register → Int
  zf : Bool
  sf : Bool
  of : Bool

/-- Functional update of one register slot (the IndexMut impl). -/
def RegisterFile.setReg (rf : RegisterFile) (r : Register) (v : Int) : RegisterFile :=
  { rf with registers := fun x => if x = r then v else rf.registers x }

/-- Flags::eval_condition, computed purely from the current flags. -/
def RegisterFile.eval_condition (rf : RegisterFile) (cond : JCmovFun) : Bool :=
  match cond with
  | .lessEqual => (Bool.xor rf.sf rf.of) || rf.zf
  | .less => Bool.xor rf.sf rf.of
  | .equal => rf.zf
  | .notEqual => !rf.zf
  | .greaterEqual => !(Bool.xor rf.sf rf.of)
  | .greater => !(Bool.xor rf.sf rf.of) && !rf.zf

/-- Registers::new: all slots zero except the stack pointer, which starts
at MEMORY_SIZE - 8; Flags::new: all flags false. -/
def RegisterFile.new : RegisterFile :=
  { registers := fun r => if r = Register.rsp then (65536 : Int) - 8 else 0
    zf := false, sf := false, of := false }

/-- Machine lifecycle state (enum State in src/vm.rs). -/
inductive State where
  | active
  | halted
deriving DecidableEq

/-- The virtual machine aggregate (struct Vm). -/
structure Vm where
  ip : Nat
  memory : MainMemory
  reg_file : RegisterFile
  state : State

/-- Vm::new: ip 0, zero-filled memory, fresh register file, Active. -/
def Vm.new : Vm :=
  { ip := 0, memory := ⟨fun _ => 0⟩, reg_file := RegisterFile.new, state := .active }

/-- The instruction source: the byte slice returned by
Region::instructions. -/
def Region : Type := List Nat

/-- Outcome of running a piece of the interpreter on a machine state: a
normal value with the updated state, an early-return error with the state
at the moment of the return (mutations already committed through the
mutable borrow stay), or a Rust panic (division overflow), which aborts
the process and produces neither value nor error. -/
inductive Res (α : Type) where
  | ok (a : α) (vm : Vm)
  | err (e : Error) (vm : Vm)
  | crash

/-- State-threading monad in which the Task methods and the instruction
handlers of src/vm.rs are written. -/
def M (α : Type) : Type := Vm → Res α

/-- Monadic bind: propagate early returns and panics, thread the state. -/
def M.bind {α β : Type} (x : M α) (f : α → M β) : M β := fun vm =>
  match x vm with
  | .ok a vm1 => f a vm1
  | .err e vm1 => .err e vm1
  | .crash => .crash

/-- Monadic pure: return a value, leave the state untouched. -/
def M.pure {α : Type} (a : α) : M α := fun vm => .ok a vm

instance : Monad M where
  pure := M.pure
  bind := M.bind

/-- Early return with an error (the ? operator / return Err). -/
def throwE {α : Type} (e : Error) : M α := fun vm => .err e vm

/-- Read the whole machine state (access through task.vm). -/
def getVm : M Vm := fun vm => .ok vm vm

/-- Mutate the machine state (assignment through task.vm). -/
def modifyVm (f : Vm → Vm) : M Unit := fun vm => .ok () (f vm)

/-- A Rust panic (process abort). -/
def crashM {α : Type} : M α := fun _ => .crash

/-- Lift a register decode result, converting the error with #[from]. -/
def liftReg {α : Type} : Except RegError α → M α
  | .ok a => M.pure a
  | .error e => throwE (.registerError e)

/-- Lift an opcode decode result, converting the error with #[from]. -/
def liftOpc {α : Type} : Except OpcodeError α → M α
  | .ok a => M.pure a
  | .error e => throwE (.opcodeError e)

/-- Vm::read_block, converting the memory error with #[from]; the
abnormal memory outcome aborts the whole computation. -/
def readBlock (addr : Nat) : M Int := fun vm =>
  match vm.memory.read addr with
  | .ok v => .ok v vm
  | .err e => .err (.memoryError e) vm
  | .crash => .crash

/-- Vm::write_block, converting the memory error with #[from]; the
abnormal memory outcome aborts the whole computation. -/
def writeBlock (addr : Nat) (v : Int) : M Unit := fun vm =>
  match vm.memory.write addr v with
  | .ok m2 => .ok () { vm with memory := m2 }
  | .err e => .err (.memoryError e) vm
  | .crash => .crash

/-- Task::eat: read the byte at the instruction pointer and advance the
pointer; at the end of the stream fail with EndOfInstructions carrying the
(unadvanced) pointer. -/
def eat (r : Region) : M Nat := fun vm =>
  match r.get? vm.ip with
  | some b => .ok b { vm with ip := vm.ip + 1 }
  | none => .err (.endOfInstructions vm.ip) vm

/-- Task::eat_immediate: eat 8 bytes and combine them little-endian into a
signed word. -/
def eatImmediate (r : Region) : M Int := do
  let b0 ← eat r
  let b1 ← eat r
  let b2 ← eat r
  let b3 ← eat r
  let b4 ← eat r
  let b5 ← eat r
  let b6 ← eat r
  let b7 ← eat r
  M.pure (uToI64 (leSum b0 b1 b2 b3 b4 b5 b6 b7))

/-- Outcome of the arithmetic dispatch inside opq: a result with the
overflow indicator, the division-by-zero early return, or the Rust panic
on division overflow (i64::MIN divided by -1, in both / and %). -/
inductive OpOut where
  | ok (result : Int) (ovf : Bool)
  | divByZero
  | crash
deriving DecidableEq

/-- The `match fun` block of opq: wraparound add/sub/mul with overflow
indicator, bitwise and/xor with indicator false, and truncated division
and remainder guarded by the zero check (first) and subject to the Rust
overflow panic at i64::MIN over -1. -/
def opCompute (f : OpFun) (valB valA : Int) : OpOut :=
  match f with
  | .add => .ok (wrap64 (valB + valA)) (decide (wrap64 (valB + valA) ≠ valB + valA))
  | .sub => .ok (wrap64 (valB - valA)) (decide (wrap64 (valB - valA) ≠ valB - valA))
  | .and => .ok (i64And valB valA) false
  | .xor => .ok (i64Xor valB valA) false
  | .mul => .ok (wrap64 (valB * valA)) (decide (wrap64 (valB * valA) ≠ valB * valA))
  | .div =>
      if valA = 0 then .divByZero
      else if valB = i64Min ∧ valA = -1 then .crash
      else .ok (Int.tdiv valB valA) false
  | .mod =>
      if valA = 0 then .divByZero
      else if valB = i64Min ∧ valA = -1 then .crash
      else .ok (Int.tmod valB valA) false

/-- Handler for Halt: set the lifecycle state to Halted. -/
def halt (_r : Region) : M Unit :=
  modifyVm (fun v => { v with state := .halted })

/-- Handler for Nop. -/
def nop (_r : Region) : M Unit := M.pure ()

/-- Handler for Rrmovq: unconditional register move. -/
def rrmovq (r : Region) : M Unit := do
  let byte ← eat r
  let ra ← liftReg (Register.tryFrom (byte / 16))
  let rb ← liftReg (Register.tryFrom (byte % 16))
  let vm ← getVm
  let valA := vm.reg_file.registers ra
  modifyVm (fun v => { v with reg_file := v.reg_file.setReg rb valA })

/-- Handler for Cmovxx: move only if the condition holds on the current
flags; the operand byte is consumed either way. -/
def cmovxx (r : Region) (cond : JCmovFun) : M Unit := do
  let byte ← eat r
  let ra ← liftReg (Register.tryFrom (byte / 16))
  let rb ← liftReg (Register.tryFrom (byte % 16))
  let vm ← getVm
  if vm.reg_file.eval_condition cond then
    let valA := vm.reg_file.registers ra
    modifyVm (fun v => { v with reg_file := v.reg_file.setReg rb valA })

/-- Handler for Irmovq: load an 8 byte immediate into the register named
by the low nibble of the operand byte (the high nibble is not validated). -/
def irmovq (r : Region) : M Unit := do
  let byte ← eat r
  let rb ← liftReg (Register.tryFrom (byte % 16))
  let valC ← eatImmediate r
  modifyVm (fun v => { v with reg_file := v.reg_file.setReg rb valC })

/-- Handler for Rmmovq: store register ra at address val(rb) plus
displacement. -/
def rmmovq (r : Region) : M Unit := do
  let byte ← eat r
  let ra ← liftReg (Register.tryFrom (byte / 16))
  let rb ← liftReg (Register.tryFrom (byte % 16))
  let valC ← eatImmediate r
  let vm ← getVm
  let valA := vm.reg_file.registers ra
  let valB := vm.reg_file.registers rb
  writeBlock (toU64 (wrap64 (valB + valC))) valA

/-- Handler for Mrmovq: load register ra from address val(rb) plus
displacement. -/
def mrmovq (r : Region) : M Unit := do
  let byte ← eat r
  let ra ← liftReg (Register.tryFrom (byte / 16))
  let rb ← liftReg (Register.tryFrom (byte % 16))
  let valC ← eatImmediate r
  let vm ← getVm
  let valB := vm.reg_file.registers rb
  let valM ← readBlock (toU64 (wrap64 (valB + valC)))
  modifyVm (fun v => { v with reg_file := v.reg_file.setReg ra valM })

/-- Handler for Opq: compute f(val(rb), val(ra)) into rb and set the three
flags from the result; the division-by-zero early return happens before
any register or flag write. -/
def opq (r : Region) (f : OpFun) : M Unit := do
  let byte ← eat r
  let ra ← liftReg (Register.tryFrom (byte / 16))
  let rb ← liftReg (Register.tryFrom (byte % 16))
  let vm ← getVm
  let valA := vm.reg_file.registers ra
  let valB := vm.reg_file.registers rb
  match opCompute f valB valA with
  | .divByZero => throwE .divisionByZero
  | .crash => crashM
  | .ok result ovf =>
      modifyVm (fun v => { v with reg_file :=
        { v.reg_file.setReg rb result with
          zf := decide (result = 0), sf := decide (result < 0), of := ovf } })

/-- Handler for Jxx: jump to the 8 byte target if the condition holds. -/
def jxx (r : Region) (cond : JCmovFun) : M Unit := do
  let destI ← eatImmediate r
  let vm ← getVm
  if vm.reg_file.eval_condition cond then
    modifyVm (fun v => { v with ip := toU64 destI })

/-- Handler for Call: push the post-fetch instruction pointer at the
decremented stack pointer, then jump to the target. -/
def call (r : Region) : M Unit := do
  let destI ← eatImmediate r
  let vm ← getVm
  let valP := usizeToI64 vm.ip
  let valRsp := vm.reg_file.registers Register.rsp
  let newRsp := wrap64 (valRsp - 8)
  writeBlock (toU64 newRsp) valP
  modifyVm (fun v => { v with reg_file := v.reg_file.setReg Register.rsp newRsp })
  modifyVm (fun v => { v with ip := toU64 destI })

/-- Handler for Ret: read the return address at the stack pointer,
increment the stack pointer, jump to the return address. -/
def ret (_r : Region) : M Unit := do
  let vm ← getVm
  let valRsp := vm.reg_file.registers Register.rsp
  let retAddr ← readBlock (toU64 valRsp)
  let newRsp := wrap64 (valRsp + 8)
  modifyVm (fun v => { v with reg_file := v.reg_file.setReg Register.rsp newRsp })
  modifyVm (fun v => { v with ip := toU64 retAddr })

/-- Handler for Pushq: store val(ra) at the decremented stack pointer. -/
def pushq (r : Region) : M Unit := do
  let byte ← eat r
  let ra ← liftReg (Register.tryFrom (byte / 16))
  let vm ← getVm
  let valA := vm.reg_file.registers ra
  let valRsp := vm.reg_file.registers Register.rsp
  let newRsp := wrap64 (valRsp - 8)
  writeBlock (toU64 newRsp) valA
  modifyVm (fun v => { v with reg_file := v.reg_file.setReg Register.rsp newRsp })

/-- Handler for Popq: read the word at the stack pointer into ra, then
increment the stack pointer; NOTE the write order of the source, the
destination register is written first and the stack pointer slot second. -/
def popq (r : Region) : M Unit := do
  let byte ← eat r
  let ra ← liftReg (Register.tryFrom (byte / 16))
  let vm ← getVm
  let valRsp := vm.reg_file.registers Register.rsp
  let valM ← readBlock (toU64 valRsp)
  let newRsp := wrap64 (valRsp + 8)
  modifyVm (fun v => { v with reg_file := v.reg_file.setReg ra valM })
  modifyVm (fun v => { v with reg_file := v.reg_file.setReg Register.rsp newRsp })

/-- Task::run: fetch the lead byte, decode it, dispatch to the handler. -/
def runTask (r : Region) : M Unit := do
  let b ← eat r
  let opcode ← liftOpc (Opcode.tryFrom b)
  match opcode with
  | .halt => halt r
  | .nop => nop r
  | .rrmovq => rrmovq r
  | .cmovxx cond => cmovxx r cond
  | .irmovq => irmovq r
  | .rmmovq => rmmovq r
  | .mrmovq => mrmovq r
  | .opq f => opq r f
  | .jxx cond => jxx r cond
  | .call => call r
  | .ret => ret r
  | .pushq => pushq r
  | .popq => popq r

/-- Vm::step: refuse to run a halted machine (before any fetch), otherwise
run one fetch-decode-execute task. -/
def Vm.step (vm : Vm) (r : Region) : Res Unit :=
  if vm.state = State.halted then .err .machineHalted vm
  else runTask r vm

/-- Final machine state visible in a step outcome (both the success and
the error channel carry one; a panic does not). -/
def Res.finalVm {α : Type} : Res α → Option Vm
  | .ok _ vm => some vm
  | .err _ vm => some vm
  | .crash => none

/-- Error carried by a step outcome, when there is one. -/
def Res.errOf {α : Type} : Res α → Option Error
  | .err e _ => some e
  | _ => none

/-- Boolean test for the success outcome. -/
def Res.isOk {α : Type} : Res α → Bool
  | .ok _ _ => true
  | _ => false

/-- Boolean test for the panic outcome. -/
def Res.isCrash {α : Type} : Res α → Bool
  | .crash => true
  | _ => false

/-- Boolean test for the success outcome of the arithmetic dispatch. -/
def OpOut.isOk : OpOut → Bool
  | .ok _ _ => true
  | _ => false

/-- Write followed by a read of the same address, the round-trip
composition of the two MainMemory operations. -/
def writeThenRead (m : MainMemory) (a : Nat) (w : Int) : MemRes Int :=
  match m.write a w with
  | .ok m2 => m2.read a
  | .err e => .err e
  | .crash => .crash

/-! ### Unfolding lemmas for the state monad -/

/-- Application of a bind to a state, unfolded. -/
theorem bind_app {α β : Type} (x : M α) (f : α → M β) (vm : Vm) :
    (x >>= f) vm = match x vm with
      | .ok a vm1 => f a vm1
      | .err e vm1 => .err e vm1
      | .crash => .crash := rfl

/-- Application of the do-notation pure to a state, unfolded. -/
theorem pure_app {α : Type} (a : α) (vm : Vm) : (pure a : M α) vm = .ok a vm := rfl

/-- Application of M.pure to a state, unfolded. -/
theorem mpure_app {α : Type} (a : α) (vm : Vm) : (M.pure a : M α) vm = .ok a vm := rfl

/-- Successful eat: the requested byte is present, the pointer advances. -/
theorem eat_ok (r : Region) (vm : Vm) (b : Nat) (h : r.get? vm.ip = some b) :
    eat r vm = .ok b { vm with ip := vm.ip + 1 } := by
  simp only [eat]
  rw [h]

/-! ### Memory lemmas -/

/-- Unsigned reinterpretation is always below 2 to the 64. -/
theorem toU64_lt (x : Int) : toU64 x < 18446744073709551616 := by
  unfold toU64; omega

/-- Reading back the little-endian digits of a value below 2 to the 64
recovers the value. -/
theorem storeLe_read_back (b : Nat → Nat) (a u : Nat) (hu : u < 18446744073709551616) :
    leCombine (storeLe b a u) a = u := by
  have e0 : storeLe b a u a = u % 256 := by
    simp only [storeLe]; simp
  have e1 : storeLe b a u (a + 1) = u / 256 % 256 := by
    simp only [storeLe]; rw [if_neg (by omega)]; simp
  have e2 : storeLe b a u (a + 2) = u / 65536 % 256 := by
    simp only [storeLe]; rw [if_neg (by omega), if_neg (by omega)]; simp
  have e3 : storeLe b a u (a + 3) = u / 16777216 % 256 := by
    simp only [storeLe]
    rw [if_neg (by omega), if_neg (by omega), if_neg (by omega)]; simp
  have e4 : storeLe b a u (a + 4) = u / 4294967296 % 256 := by
    simp only [storeLe]
    rw [if_neg (by omega), if_neg (by omega), if_neg (by omega), if_neg (by omega)]; simp
  have e5 : storeLe b a u (a + 5) = u / 1099511627776 % 256 := by
    simp only [storeLe]
    rw [if_neg (by omega), if_neg (by omega), if_neg (by omega), if_neg (by omega),
      if_neg (by omega)]; simp
  have e6 : storeLe b a u (a + 6) = u / 281474976710656 % 256 := by
    simp only [storeLe]
    rw [if_neg (by omega), if_neg (by omega), if_neg (by omega), if_neg (by omega),
      if_neg (by omega), if_neg (by omega)]; simp
  have e7 : storeLe b a u (a + 7) = u / 72057594037927936 % 256 := by
    simp only [storeLe]
    rw [if_neg (by omega), if_neg (by omega), if_neg (by omega), if_neg (by omega),
      if_neg (by omega), if_neg (by omega), if_neg (by omega)]; simp
  unfold leCombine leSum
  rw [e0, e1, e2, e3, e4, e5, e6, e7]
  omega

/-- Unsigned reinterpretation round-trips on i64-representable values. -/
theorem uToI64_toU64 (w : Int) (hw : isI64 w) : uToI64 (toU64 w) = w := by
  unfold isI64 at hw
  unfold uToI64 toU64
  split <;> omega

/-- Reading an address just written returns the written word. -/
theorem mem_write_read (m m2 : MainMemory) (a : Nat) (w : Int) (hw : isI64 w)
    (h : m.write a w = .ok m2) : m2.read a = .ok w := by
  unfold MainMemory.write at h
  by_cases h1 : a % BLOCK_SIZE ≠ 0
  · rw [if_pos h1] at h; cases h
  · rw [if_neg h1] at h
    by_cases hov : 18446744073709551616 ≤ a + BLOCK_SIZE
    · rw [if_pos hov] at h; cases h
    · rw [if_neg hov] at h
      by_cases h2 : a + BLOCK_SIZE > MEMORY_SIZE
      · rw [if_pos h2] at h; cases h
      · rw [if_neg h2] at h
        cases h
        simp only [MainMemory.read]
        rw [if_neg h1, if_neg hov, if_neg h2, storeLe_read_back _ _ _ (toU64_lt w),
          uToI64_toU64 w hw]

/-! ### Claim C7 -/

/-- C7 counterexample: at the aligned address 2 to the 64 minus 8 the
8 byte span exceeds the 64 KiB buffer length, yet neither read nor write
returns InvalidAddress: the usize addition of the bounds test overflows,
so the program panics (debug) or wraps past the check into an
out-of-bounds access (release).  The address is reachable, for example by
loading 0 into rsp with irmovq and then executing pushq, whose new stack
pointer -8 casts to 2 to the 64 minus 8. -/
theorem memory_bounds_overflow_cex :
    (18446744073709551608 : Nat) % 8 = 0
    ∧ (18446744073709551608 : Nat) + 8 > MEMORY_SIZE
    ∧ Vm.new.memory.read 18446744073709551608 = .crash
    ∧ Vm.new.memory.read 18446744073709551608 ≠ .err (.invalidAddress 18446744073709551608)
    ∧ (Vm.new.memory.write 18446744073709551608 0).isCrash = true := by
  decide

/-- C7 (amended): for every address, read and write check alignment
before bounds, so a misaligned address fails with UnalignedAccess (never
InvalidAddress) even when it is also out of bounds; an aligned address
whose 8 byte span leaves the 64 KiB buffer fails with InvalidAddress
provided the bounds test itself does not overflow usize (addr + 8 below
2 to the 64); at aligned addresses at or above 2 to the 64 minus 8 the
usize addition of the bounds test overflows and the program panics
(debug) or performs an out-of-bounds access (release) instead of
returning InvalidAddress. -/
theorem memory_alignment_before_bounds_amended (m : MainMemory) (a : Nat) (w : Int) :
    (a % 8 ≠ 0 →
      m.read a = .err (.unalignedAccess a) ∧ m.write a w = .err (.unalignedAccess a))
    ∧ (a % 8 = 0 → a + 8 > MEMORY_SIZE → a + 8 < 18446744073709551616 →
      m.read a = .err (.invalidAddress a) ∧ m.write a w = .err (.invalidAddress a))
    ∧ (a % 8 = 0 → 18446744073709551616 ≤ a + 8 →
      m.read a = .crash ∧ (m.write a w).isCrash = true) := by
  refine ⟨?_, ?_, ?_⟩
  · intro h
    constructor <;> simp [MainMemory.read, MainMemory.write, BLOCK_SIZE, h]
  · intro h1 h2 h3
    have h4 : ¬(18446744073709551616 ≤ a + 8) := by omega
    constructor <;> simp [MainMemory.read, MainMemory.write, BLOCK_SIZE, h1, h2, h4]
  · intro h1 h2
    constructor <;>
      simp [MainMemory.read, MainMemory.write, MemRes.isCrash, BLOCK_SIZE, h1, h2]

/-- Witness for the amended C7 at the misaligned (and also out of range)
address 65541, at the aligned out-of-range address 65544, and at the
aligned overflow address 2 to the 64 minus 8. -/
theorem memory_alignment_before_bounds_amended_witness :
    (Vm.new.memory.read 65541 = .err (.unalignedAccess 65541)
      ∧ Vm.new.memory.write 65541 7 = .err (.unalignedAccess 65541))
    ∧ (Vm.new.memory.read 65544 = .err (.invalidAddress 65544)
      ∧ Vm.new.memory.write 65544 7 = .err (.invalidAddress 65544))
    ∧ (Vm.new.memory.read 18446744073709551608 = .crash
      ∧ (Vm.new.memory.write 18446744073709551608 7).isCrash = true) :=
  ⟨(memory_alignment_before_bounds_amended Vm.new.memory 65541 7).1 (by decide),
   (memory_alignment_before_bounds_amended Vm.new.memory 65544 7).2.1
     (by decide) (by decide) (by decide),
   (memory_alignment_before_bounds_amended Vm.new.memory 18446744073709551608 7).2.2
     (by decide) (by decide)⟩

/-! ### Claim C8 -/

/-- C8: for every 8-byte-aligned in-bounds address and every i64 word,
writing then reading the same address succeeds and returns the word; the
read itself is a pure function of the memory value and the address (its
embedding has no state effect), so it has no side effects. -/
theorem memory_write_read_roundtrip (m : MainMemory) (a : Nat) (w : Int)
    (h1 : a % 8 = 0) (h2 : a + 8 ≤ MEMORY_SIZE) (hw : isI64 w) :
    writeThenRead m a w = .ok w := by
  have h2n : a + 8 ≤ 65536 := by simpa [MEMORY_SIZE] using h2
  have hwr : m.write a w = .ok ⟨storeLe m.bytes a (toU64 w)⟩ := by
    unfold MainMemory.write
    rw [if_neg (by simp [BLOCK_SIZE, h1]), if_neg (by simp only [BLOCK_SIZE]; omega),
      if_neg (by simp only [BLOCK_SIZE, MEMORY_SIZE]; omega)]
  unfold writeThenRead
  rw [hwr]
  exact mem_write_read m _ a w hw hwr

/-- Witness for C8 at address 16 with the word -5. -/
theorem memory_write_read_roundtrip_witness :
    writeThenRead Vm.new.memory 16 (-5) = .ok (-5) :=
  memory_write_read_roundtrip Vm.new.memory 16 (-5) (by decide) (by decide) (by decide)

/-! ### Claim C9 -/

/-- C9: stepping a halted machine fails with MachineHalted, performs no
fetch (the result does not depend on the instruction source), and returns
the machine unchanged; since the returned machine is the same halted
machine, every subsequent step request fails the same way, so Halted is
terminal. -/
theorem step_halted_terminal (vm : Vm) (r : Region) (h : vm.state = State.halted) :
    vm.step r = .err .machineHalted vm := by
  simp [Vm.step, h]

/-- Witness for C9 on a freshly halted machine and an arbitrary source. -/
theorem step_halted_terminal_witness :
    ({ Vm.new with state := State.halted } : Vm).step [118] =
      .err .machineHalted { Vm.new with state := State.halted } :=
  step_halted_terminal { Vm.new with state := State.halted } [118] rfl

/-! ### Step reduction lemmas -/

/-- Stepping an active machine runs one fetch-decode-execute task. -/
theorem step_active (vm : Vm) (r : Region) (h : vm.state = State.active) :
    vm.step r = runTask r vm := by
  simp [Vm.step, h]

/-- One task, given a successful fetch and decode of the lead byte,
dispatches to the matching handler on the machine with the pointer
advanced past the lead byte. -/
theorem runTask_dispatch (r : Region) (vm : Vm) (b : Nat) (opc : Opcode)
    (h1 : r.get? vm.ip = some b) (h2 : Opcode.tryFrom b = .ok opc) :
    runTask r vm =
      (match opc with
       | .halt => halt r
       | .nop => nop r
       | .rrmovq => rrmovq r
       | .cmovxx cond => cmovxx r cond
       | .irmovq => irmovq r
       | .rmmovq => rmmovq r
       | .mrmovq => mrmovq r
       | .opq f => opq r f
       | .jxx cond => jxx r cond
       | .call => call r
       | .ret => ret r
       | .pushq => pushq r
       | .popq => popq r) { vm with ip := vm.ip + 1 } := by
  simp only [runTask, bind_app, eat_ok r vm b h1, h2, liftOpc, mpure_app]

/-- Reduction of a full step that fetches an Opq instruction with a valid
operand byte: the outcome is decided by the arithmetic dispatch. -/
theorem step_opq_reduce (vm : Vm) (r : Region) (b1 b2 : Nat) (f : OpFun) (ra rb : Register)
    (hactive : vm.state = State.active)
    (h1 : r.get? vm.ip = some b1)
    (hf : Opcode.tryFrom b1 = .ok (.opq f))
    (h2 : r.get? (vm.ip + 1) = some b2)
    (hra : Register.tryFrom (b2 / 16) = .ok ra)
    (hrb : Register.tryFrom (b2 % 16) = .ok rb) :
    vm.step r =
      match opCompute f (vm.reg_file.registers rb) (vm.reg_file.registers ra) with
      | .ok result ovf =>
          .ok () { vm with
                    ip := vm.ip + 1 + 1
                    reg_file := { vm.reg_file.setReg rb result with
                      zf := decide (result = 0), sf := decide (result < 0), of := ovf } }
      | .divByZero => .err .divisionByZero { vm with ip := vm.ip + 1 + 1 }
      | .crash => .crash := by
  rw [step_active vm r hactive, runTask_dispatch r vm b1 (.opq f) h1 hf]
  have h2A : r.get? ({ vm with ip := vm.ip + 1 } : Vm).ip = some b2 := h2
  simp only [opq, bind_app, eat_ok _ _ _ h2A, hra, hrb, liftReg, mpure_app, getVm]
  cases hc : opCompute f (vm.reg_file.registers rb) (vm.reg_file.registers ra) <;> rfl

/-! ### Claim C5 -/

/-- C5: an Opq instruction with kind Div or Mod whose source register (the
divisor) is zero makes the step fail with DivisionByZero; the returned
machine differs from the pre-step machine only in the instruction pointer
(advanced past the two consumed bytes), so the destination register and
all three flags retain their pre-instruction values. -/
theorem opq_div_by_zero_no_mutation (vm : Vm) (r : Region) (b1 b2 : Nat) (f : OpFun)
    (ra rb : Register)
    (hactive : vm.state = State.active)
    (h1 : r.get? vm.ip = some b1)
    (hf : Opcode.tryFrom b1 = .ok (.opq f))
    (hdm : f = OpFun.div ∨ f = OpFun.mod)
    (h2 : r.get? (vm.ip + 1) = some b2)
    (hra : Register.tryFrom (b2 / 16) = .ok ra)
    (hrb : Register.tryFrom (b2 % 16) = .ok rb)
    (hzero : vm.reg_file.registers ra = 0) :
    vm.step r = .err Error.divisionByZero { vm with ip := vm.ip + 1 + 1 } := by
  rw [step_opq_reduce vm r b1 b2 f ra rb hactive h1 hf h2 hra hrb]
  rcases hdm with rfl | rfl <;> simp [opCompute, hzero]

/-- Witness for C5: divq with both nibbles naming rax on a fresh machine
(rax is zero) fails with DivisionByZero and only advances the pointer. -/
theorem opq_div_by_zero_no_mutation_witness :
    Vm.new.step [101, 0] = .err Error.divisionByZero { Vm.new with ip := 2 } :=
  opq_div_by_zero_no_mutation Vm.new [101, 0] 101 0 OpFun.div Register.rax Register.rax
    rfl rfl (by decide) (Or.inl rfl) rfl (by decide) (by decide) rfl

/-! ### Claim C6 -/

/-- C6: on every successful Opq instruction, with result the truncated
value written to the destination register, the zero flag is exactly
result = 0, the sign flag is exactly result < 0, and the overflow flag is
the wraparound overflow indicator for add, sub and mul and false for and,
xor, div and mod. -/
theorem opq_flags_on_success (vm vm2 : Vm) (r : Region) (b1 b2 : Nat) (f : OpFun)
    (ra rb : Register)
    (hactive : vm.state = State.active)
    (h1 : r.get? vm.ip = some b1)
    (hf : Opcode.tryFrom b1 = .ok (.opq f))
    (h2 : r.get? (vm.ip + 1) = some b2)
    (hra : Register.tryFrom (b2 / 16) = .ok ra)
    (hrb : Register.tryFrom (b2 % 16) = .ok rb)
    (hstep : vm.step r = .ok () vm2) :
    vm2.reg_file.registers rb =
      (match f with
        | .add => wrap64 (vm.reg_file.registers rb + vm.reg_file.registers ra)
        | .sub => wrap64 (vm.reg_file.registers rb - vm.reg_file.registers ra)
        | .and => i64And (vm.reg_file.registers rb) (vm.reg_file.registers ra)
        | .xor => i64Xor (vm.reg_file.registers rb) (vm.reg_file.registers ra)
        | .mul => wrap64 (vm.reg_file.registers rb * vm.reg_file.registers ra)
        | .div => Int.tdiv (vm.reg_file.registers rb) (vm.reg_file.registers ra)
        | .mod => Int.tmod (vm.reg_file.registers rb) (vm.reg_file.registers ra))
    ∧ vm2.reg_file.zf = decide (vm2.reg_file.registers rb = 0)
    ∧ vm2.reg_file.sf = decide (vm2.reg_file.registers rb < 0)
    ∧ vm2.reg_file.of =
      (match f with
        | .add => decide (wrap64 (vm.reg_file.registers rb + vm.reg_file.registers ra)
            ≠ vm.reg_file.registers rb + vm.reg_file.registers ra)
        | .sub => decide (wrap64 (vm.reg_file.registers rb - vm.reg_file.registers ra)
            ≠ vm.reg_file.registers rb - vm.reg_file.registers ra)
        | .mul => decide (wrap64 (vm.reg_file.registers rb * vm.reg_file.registers ra)
            ≠ vm.reg_file.registers rb * vm.reg_file.registers ra)
        | _ => false) := by
  rw [step_opq_reduce vm r b1 b2 f ra rb hactive h1 hf h2 hra hrb] at hstep
  cases f
  case add =>
    simp only [opCompute] at hstep
    cases hstep
    simp [RegisterFile.setReg]
  case sub =>
    simp only [opCompute] at hstep
    cases hstep
    simp [RegisterFile.setReg]
  case and =>
    simp only [opCompute] at hstep
    cases hstep
    simp [RegisterFile.setReg]
  case xor =>
    simp only [opCompute] at hstep
    cases hstep
    simp [RegisterFile.setReg]
  case mul =>
    simp only [opCompute] at hstep
    cases hstep
    simp [RegisterFile.setReg]
  case div =>
    simp only [opCompute] at hstep
    by_cases hz : vm.reg_file.registers ra = 0
    · rw [if_pos hz] at hstep
      exact absurd hstep (by simp)
    · rw [if_neg hz] at hstep
      by_cases hm : vm.reg_file.registers rb = i64Min ∧ vm.reg_file.registers ra = -1
      · rw [if_pos hm] at hstep
        exact absurd hstep (by simp)
      · rw [if_neg hm] at hstep
        cases hstep
        simp [RegisterFile.setReg]
  case mod =>
    simp only [opCompute] at hstep
    by_cases hz : vm.reg_file.registers ra = 0
    · rw [if_pos hz] at hstep
      exact absurd hstep (by simp)
    · rw [if_neg hz] at hstep
      by_cases hm : vm.reg_file.registers rb = i64Min ∧ vm.reg_file.registers ra = -1
      · rw [if_pos hm] at hstep
        exact absurd hstep (by simp)
      · rw [if_neg hm] at hstep
        cases hstep
        simp [RegisterFile.setReg]

/-- Machine produced by the witness step for C6: addq rax, rax on a fresh
machine. -/
def c6vm2 : Vm :=
  { Vm.new with
      ip := 2
      reg_file := { Vm.new.reg_file.setReg Register.rax 0 with
        zf := true, sf := false, of := false } }

/-- Witness for C6: addq rax, rax on a fresh machine writes 0, sets the
zero flag and clears the sign and overflow flags. -/
theorem opq_flags_on_success_witness :
    c6vm2.reg_file.registers Register.rax = 0
    ∧ c6vm2.reg_file.zf = true
    ∧ c6vm2.reg_file.sf = false
    ∧ c6vm2.reg_file.of = false :=
  opq_flags_on_success Vm.new c6vm2 [96, 0] 96 0 OpFun.add Register.rax Register.rax
    rfl rfl (by decide) rfl (by decide) (by decide) rfl

/-! ### Arithmetic helper lemmas for call and ret -/

/-- Casting usize to i64 always lands in the i64 range. -/
theorem isI64_usizeToI64 (n : Nat) : isI64 (usizeToI64 n) := by
  unfold usizeToI64 uToI64 isI64
  split <;> omega

/-- Round trip usize to i64 and back for small values. -/
theorem toU64_usizeToI64 (n : Nat) (h : n < 9223372036854775808) :
    toU64 (usizeToI64 n) = n := by
  unfold toU64 usizeToI64 uToI64
  split <;> omega

/-- Wrapping decrement by 8 followed by wrapping increment by 8 is the
identity on i64-representable values. -/
theorem wrap64_sub_add (x : Int) (hx : isI64 x) :
    wrap64 (wrap64 (x - 8) + 8) = x := by
  unfold isI64 at hx
  unfold wrap64
  omega

/-- A successful eat_immediate advances the instruction pointer by exactly
8 and changes nothing else. -/
theorem eatImmediate_ok (r : Region) (vm vmB : Vm) (v : Int)
    (h : eatImmediate r vm = .ok v vmB) :
    vmB = { vm with ip := vm.ip + 8 } := by
  simp only [eatImmediate, bind_app, eat, mpure_app] at h
  cases h0 : r.get? vm.ip
  case none => simp only [h0] at h; cases h
  case some b0 =>
  simp only [h0] at h
  cases h1 : r.get? (vm.ip + 1)
  case none => simp only [h1] at h; cases h
  case some b1 =>
  simp only [h1] at h
  cases h2 : r.get? (vm.ip + 1 + 1)
  case none => simp only [h2] at h; cases h
  case some b2 =>
  simp only [h2] at h
  cases h3 : r.get? (vm.ip + 1 + 1 + 1)
  case none => simp only [h3] at h; cases h
  case some b3 =>
  simp only [h3] at h
  cases h4 : r.get? (vm.ip + 1 + 1 + 1 + 1)
  case none => simp only [h4] at h; cases h
  case some b4 =>
  simp only [h4] at h
  cases h5 : r.get? (vm.ip + 1 + 1 + 1 + 1 + 1)
  case none => simp only [h5] at h; cases h
  case some b5 =>
  simp only [h5] at h
  cases h6 : r.get? (vm.ip + 1 + 1 + 1 + 1 + 1 + 1)
  case none => simp only [h6] at h; cases h
  case some b6 =>
  simp only [h6] at h
  cases h7 : r.get? (vm.ip + 1 + 1 + 1 + 1 + 1 + 1 + 1)
  case none => simp only [h7] at h; cases h
  case some b7 =>
  simp only [h7] at h
  cases h
  rfl

/-! ### Claim C4 -/

/-- C4: a successful Call at the current instruction address, followed
(at any later point, from any machine that still has the post-call stack
pointer and the same word in the return-address slot) by a successful
Return, sets the instruction pointer to the byte after the call
instruction (call address plus 9) and restores the stack pointer register
to its pre-call value.  The two i64-range side conditions hold for every
machine the Rust program can actually build: registers are i64 by type,
and an instruction offset fits in an isize because a Vec is at most
isize::MAX bytes long. -/
theorem call_ret_pairing
    (vm vm1 vm2 vm3 : Vm) (r r2 : Region) (cb rb2 : Nat)
    (hactive : vm.state = State.active)
    (hfetch : r.get? vm.ip = some cb)
    (hcb : Opcode.tryFrom cb = .ok .call)
    (hstep1 : vm.step r = .ok () vm1)
    (hipb : vm.ip + 9 < 9223372036854775808)
    (hrspr : isI64 (vm.reg_file.registers Register.rsp))
    (hactive2 : vm2.state = State.active)
    (hrsp2 : vm2.reg_file.registers Register.rsp = vm1.reg_file.registers Register.rsp)
    (hmem2 : vm2.memory.read (toU64 (vm1.reg_file.registers Register.rsp))
           = vm1.memory.read (toU64 (vm1.reg_file.registers Register.rsp)))
    (hfetch2 : r2.get? vm2.ip = some rb2)
    (hrb2 : Opcode.tryFrom rb2 = .ok .ret)
    (hstep2 : vm2.step r2 = .ok () vm3) :
    vm3.ip = vm.ip + 9
    ∧ vm3.reg_file.registers Register.rsp = vm.reg_file.registers Register.rsp := by
  rw [step_active vm r hactive, runTask_dispatch r vm cb .call hfetch hcb] at hstep1
  simp only [call, bind_app] at hstep1
  cases hEI : eatImmediate r { vm with ip := vm.ip + 1 }
  case err e vmE => simp only [hEI] at hstep1; cases hstep1
  case crash => simp only [hEI] at hstep1; cases hstep1
  case ok destI vmB =>
  have hB := eatImmediate_ok r _ vmB destI hEI
  subst hB
  simp only [hEI, bind_app, getVm, writeBlock, modifyVm] at hstep1
  cases hW : vm.memory.write (toU64 (wrap64 (vm.reg_file.registers Register.rsp - 8)))
      (usizeToI64 (vm.ip + 1 + 8))
  case err e => simp only [hW] at hstep1; cases hstep1
  case crash => simp only [hW] at hstep1; cases hstep1
  case ok m2 =>
  simp only [hW] at hstep1
  cases hstep1
  -- after the substitution of the post-call machine, normalize the
  -- projections appearing in the linking hypotheses
  simp [RegisterFile.setReg] at hrsp2 hmem2
  have hread1 : m2.read (toU64 (wrap64 (vm.reg_file.registers Register.rsp - 8)))
      = .ok (usizeToI64 (vm.ip + 1 + 8)) :=
    mem_write_read vm.memory m2 _ _ (isI64_usizeToI64 _) hW
  -- the ret step
  rw [step_active vm2 r2 hactive2, runTask_dispatch r2 vm2 rb2 .ret hfetch2 hrb2] at hstep2
  simp only [ret, bind_app, getVm, readBlock, modifyVm] at hstep2
  have hreadv2 : vm2.memory.read (toU64 (vm2.reg_file.registers Register.rsp))
      = .ok (usizeToI64 (vm.ip + 1 + 8)) := by
    rw [hrsp2]
    exact hmem2.trans hread1
  simp only [hreadv2] at hstep2
  cases hstep2
  refine ⟨?_, ?_⟩
  · show toU64 (usizeToI64 (vm.ip + 1 + 8)) = vm.ip + 9
    rw [toU64_usizeToI64 _ (by omega)]
  · simp only [RegisterFile.setReg]
    rw [if_pos trivial, hrsp2]
    exact wrap64_sub_add _ hrspr


/-- Machine after the witness call step for C4: call 0 from a fresh
machine pushes the return address 9 at 65520 and jumps to 0. -/
def c4vm1 : Vm :=
  { Vm.new with
      ip := 0
      memory := MainMemory.mk (storeLe Vm.new.memory.bytes 65520 9)
      reg_file := Vm.new.reg_file.setReg Register.rsp 65520 }

/-- Machine after the witness ret step for C4: back at offset 9 with the
stack pointer restored to 65528. -/
def c4vm3 : Vm :=
  { c4vm1 with ip := 9, reg_file := c4vm1.reg_file.setReg Register.rsp 65528 }

/-- Witness for C4: call 0 then ret on a fresh machine comes back to
offset 9 (the byte after the 9 byte call) with the stack pointer restored. -/
theorem call_ret_pairing_witness :
    c4vm3.ip = Vm.new.ip + 9
    ∧ c4vm3.reg_file.registers Register.rsp = Vm.new.reg_file.registers Register.rsp :=
  call_ret_pairing Vm.new c4vm1 c4vm1 c4vm3 [128, 0, 0, 0, 0, 0, 0, 0, 0] [144] 128 144
    rfl rfl (by decide) rfl (by decide) (by decide) rfl rfl rfl rfl (by decide) rfl

/-! ### Mutation tracking for error paths (claim C2) -/

/-- Relation between the pre-state and a post-state in which memory,
registers, flags and lifecycle state are untouched and the instruction
pointer has not moved backwards. -/
def Keep (vm vmB : Vm) : Prop :=
  vmB.memory = vm.memory ∧ vmB.reg_file = vm.reg_file ∧ vmB.state = vm.state ∧ vm.ip ≤ vmB.ip

/-- Keep is reflexive. -/
theorem keep_refl (vm : Vm) : Keep vm vm := ⟨rfl, rfl, rfl, Nat.le_refl _⟩

/-- Keep is transitive. -/
theorem keep_trans {a b c : Vm} (h1 : Keep a b) (h2 : Keep b c) : Keep a c :=
  ⟨h2.1.trans h1.1, h2.2.1.trans h1.2.1, h2.2.2.1.trans h1.2.2.1, h1.2.2.2.trans h2.2.2.2⟩

/-- The success channel of a computation preserves everything but ip. -/
def OkKeep {α : Type} (x : M α) : Prop :=
  ∀ vm a vmB, x vm = .ok a vmB → Keep vm vmB

/-- The error channel of a computation preserves everything but ip. -/
def ErrKeep {α : Type} (x : M α) : Prop :=
  ∀ vm e vmB, x vm = .err e vmB → Keep vm vmB

/-- The computation never produces an error outcome. -/
def NoErr {α : Type} (x : M α) : Prop :=
  ∀ vm e vmB, x vm ≠ .err e vmB

/-- A computation that cannot error trivially keeps state on error. -/
theorem noErr_errKeep {α : Type} {x : M α} (h : NoErr x) : ErrKeep x :=
  fun vm e vmB hx => absurd hx (h vm e vmB)

/-- Error-channel preservation composes over bind when the first
computation preserves on both channels. -/
theorem errKeep_bind {α β : Type} {x : M α} {f : α → M β}
    (hxo : OkKeep x) (hxe : ErrKeep x) (hf : ∀ a, ErrKeep (f a)) :
    ErrKeep (x >>= f) := by
  intro vm e vmB h
  rw [bind_app] at h
  split at h
  next a vm1 heq => exact keep_trans (hxo vm a vm1 heq) (hf a vm1 e vmB h)
  next e1 vm1 heq => cases h; exact hxe vm e vmB heq
  next heq => cases h

/-- Error-channel preservation also holds when the continuation can never
error, regardless of what the first computation mutates on success. -/
theorem errKeep_bind_noerr {α β : Type} {x : M α} {f : α → M β}
    (hxe : ErrKeep x) (hf : ∀ a, NoErr (f a)) :
    ErrKeep (x >>= f) := by
  intro vm e vmB h
  rw [bind_app] at h
  split at h
  next a vm1 heq => exact absurd h (hf a vm1 e vmB)
  next e1 vm1 heq => cases h; exact hxe vm e vmB heq
  next heq => cases h

/-- Success-channel preservation composes over bind. -/
theorem okKeep_bind {α β : Type} {x : M α} {f : α → M β}
    (hxo : OkKeep x) (hfo : ∀ a, OkKeep (f a)) :
    OkKeep (x >>= f) := by
  intro vm a vmB h
  rw [bind_app] at h
  split at h
  next a1 vm1 heq => exact keep_trans (hxo vm a1 vm1 heq) (hfo a1 vm1 a vmB h)
  next e1 vm1 heq => cases h
  next heq => cases h

/-- Absence of errors composes over bind. -/
theorem noErr_bind {α β : Type} {x : M α} {f : α → M β}
    (hx : NoErr x) (hf : ∀ a, NoErr (f a)) :
    NoErr (x >>= f) := by
  intro vm e vmB h
  rw [bind_app] at h
  split at h
  next a1 vm1 heq => exact absurd h (hf a1 vm1 e vmB)
  next e1 vm1 heq => cases h; exact absurd heq (hx vm e vmB)
  next heq => cases h

/-- Primitive facts: M.pure. -/
theorem okKeep_mpure {α : Type} (a : α) : OkKeep (M.pure a) := by
  intro vm a1 vmB h
  cases h
  exact keep_refl _

/-- M.pure never errors. -/
theorem noErr_mpure {α : Type} (a : α) : NoErr (M.pure a) := by
  intro vm e vmB h
  cases h

/-- getVm keeps state on success. -/
theorem okKeep_getVm : OkKeep getVm := by
  intro vm a vmB h
  cases h
  exact keep_refl _

/-- getVm never errors. -/
theorem noErr_getVm : NoErr getVm := by
  intro vm e vmB h
  cases h

/-- modifyVm never errors. -/
theorem noErr_modifyVm (f : Vm → Vm) : NoErr (modifyVm f) := by
  intro vm e vmB h
  cases h

/-- crashM never errors (it panics instead). -/
theorem noErr_crashM {α : Type} : NoErr (crashM : M α) := by
  intro vm e vmB h
  cases h

/-- throwE keeps the state it errors with. -/
theorem errKeep_throwE {α : Type} (e0 : Error) : ErrKeep (throwE e0 : M α) := by
  intro vm e vmB h
  cases h
  exact keep_refl _

/-- eat keeps everything but ip on success. -/
theorem okKeep_eat (r : Region) : OkKeep (eat r) := by
  intro vm a vmB h
  simp only [eat] at h
  split at h
  next b heq => cases h; exact ⟨rfl, rfl, rfl, by show vm.ip ≤ vm.ip + 1; omega⟩
  next heq => cases h

/-- eat keeps the state on error. -/
theorem errKeep_eat (r : Region) : ErrKeep (eat r) := by
  intro vm e vmB h
  simp only [eat] at h
  split at h
  next b heq => cases h
  next heq => cases h; exact keep_refl _

/-- Register decode lifting keeps the state on success. -/
theorem okKeep_liftReg {α : Type} (x : Except RegError α) : OkKeep (liftReg x) := by
  intro vm a vmB h
  cases x
  case ok y => cases h; exact keep_refl _
  case error e2 => cases h

/-- Register decode lifting keeps the state on error. -/
theorem errKeep_liftReg {α : Type} (x : Except RegError α) : ErrKeep (liftReg x) := by
  intro vm e vmB h
  cases x
  case ok y => cases h
  case error e2 => cases h; exact keep_refl _

/-- Opcode decode lifting keeps the state on success. -/
theorem okKeep_liftOpc {α : Type} (x : Except OpcodeError α) : OkKeep (liftOpc x) := by
  intro vm a vmB h
  cases x
  case ok y => cases h; exact keep_refl _
  case error e2 => cases h

/-- Opcode decode lifting keeps the state on error. -/
theorem errKeep_liftOpc {α : Type} (x : Except OpcodeError α) : ErrKeep (liftOpc x) := by
  intro vm e vmB h
  cases x
  case ok y => cases h
  case error e2 => cases h; exact keep_refl _

/-- readBlock keeps the state on success (it only returns the value). -/
theorem okKeep_readBlock (addr : Nat) : OkKeep (readBlock addr) := by
  intro vm a vmB h
  simp only [readBlock] at h
  split at h
  next v heq => cases h; exact keep_refl _
  next e2 heq => cases h
  next heq => cases h

/-- readBlock keeps the state on error. -/
theorem errKeep_readBlock (addr : Nat) : ErrKeep (readBlock addr) := by
  intro vm e vmB h
  simp only [readBlock] at h
  split at h
  next v heq => cases h
  next e2 heq => cases h; exact keep_refl _
  next heq => cases h

/-- writeBlock keeps the state on error (the failed check mutates
nothing). -/
theorem errKeep_writeBlock (addr : Nat) (v : Int) : ErrKeep (writeBlock addr v) := by
  intro vm e vmB h
  simp only [writeBlock] at h
  split at h
  next m2 heq => cases h
  next e2 heq => cases h; exact keep_refl _
  next heq => cases h

/-- eat_immediate keeps everything but ip on both channels. -/
theorem okKeep_eatImmediate (r : Region) : OkKeep (eatImmediate r) := by
  unfold eatImmediate
  apply okKeep_bind (okKeep_eat r); intro b0
  apply okKeep_bind (okKeep_eat r); intro b1
  apply okKeep_bind (okKeep_eat r); intro b2
  apply okKeep_bind (okKeep_eat r); intro b3
  apply okKeep_bind (okKeep_eat r); intro b4
  apply okKeep_bind (okKeep_eat r); intro b5
  apply okKeep_bind (okKeep_eat r); intro b6
  apply okKeep_bind (okKeep_eat r); intro b7
  exact okKeep_mpure _

/-- eat_immediate keeps everything but ip on the error channel. -/
theorem errKeep_eatImmediate (r : Region) : ErrKeep (eatImmediate r) := by
  unfold eatImmediate
  apply errKeep_bind (okKeep_eat r) (errKeep_eat r); intro b0
  apply errKeep_bind (okKeep_eat r) (errKeep_eat r); intro b1
  apply errKeep_bind (okKeep_eat r) (errKeep_eat r); intro b2
  apply errKeep_bind (okKeep_eat r) (errKeep_eat r); intro b3
  apply errKeep_bind (okKeep_eat r) (errKeep_eat r); intro b4
  apply errKeep_bind (okKeep_eat r) (errKeep_eat r); intro b5
  apply errKeep_bind (okKeep_eat r) (errKeep_eat r); intro b6
  apply errKeep_bind (okKeep_eat r) (errKeep_eat r); intro b7
  exact noErr_errKeep (noErr_mpure _)

/-- Per-handler error-path preservation. -/
theorem errKeep_halt (r : Region) : ErrKeep (halt r) :=
  noErr_errKeep (noErr_modifyVm _)

/-- Nop cannot err. -/
theorem errKeep_nop (r : Region) : ErrKeep (nop r) :=
  noErr_errKeep (noErr_mpure _)

/-- Rrmovq errors only during decode, before its register write. -/
theorem errKeep_rrmovq (r : Region) : ErrKeep (rrmovq r) := by
  unfold rrmovq
  apply errKeep_bind (okKeep_eat r) (errKeep_eat r); intro byte
  apply errKeep_bind (okKeep_liftReg _) (errKeep_liftReg _); intro ra
  apply errKeep_bind (okKeep_liftReg _) (errKeep_liftReg _); intro rb
  apply errKeep_bind okKeep_getVm (noErr_errKeep noErr_getVm); intro vmG
  exact noErr_errKeep (noErr_modifyVm _)

/-- Cmovxx errors only during decode, before any conditional write. -/
theorem errKeep_cmovxx (r : Region) (cond : JCmovFun) : ErrKeep (cmovxx r cond) := by
  unfold cmovxx
  apply errKeep_bind (okKeep_eat r) (errKeep_eat r); intro byte
  apply errKeep_bind (okKeep_liftReg _) (errKeep_liftReg _); intro ra
  apply errKeep_bind (okKeep_liftReg _) (errKeep_liftReg _); intro rb
  apply errKeep_bind okKeep_getVm (noErr_errKeep noErr_getVm); intro vmG
  split
  · exact noErr_errKeep (noErr_modifyVm _)
  · exact noErr_errKeep (noErr_mpure _)

/-- Irmovq errors only during decode, before its register write. -/
theorem errKeep_irmovq (r : Region) : ErrKeep (irmovq r) := by
  unfold irmovq
  apply errKeep_bind (okKeep_eat r) (errKeep_eat r); intro byte
  apply errKeep_bind (okKeep_liftReg _) (errKeep_liftReg _); intro rb
  apply errKeep_bind (okKeep_eatImmediate r) (errKeep_eatImmediate r); intro valC
  exact noErr_errKeep (noErr_modifyVm _)

/-- Rmmovq errors during decode or in the final memory write, which
mutates nothing when it fails. -/
theorem errKeep_rmmovq (r : Region) : ErrKeep (rmmovq r) := by
  unfold rmmovq
  apply errKeep_bind (okKeep_eat r) (errKeep_eat r); intro byte
  apply errKeep_bind (okKeep_liftReg _) (errKeep_liftReg _); intro ra
  apply errKeep_bind (okKeep_liftReg _) (errKeep_liftReg _); intro rb
  apply errKeep_bind (okKeep_eatImmediate r) (errKeep_eatImmediate r); intro valC
  apply errKeep_bind okKeep_getVm (noErr_errKeep noErr_getVm); intro vmG
  exact errKeep_writeBlock _ _

/-- Mrmovq errors during decode or in the memory read, before its
register write. -/
theorem errKeep_mrmovq (r : Region) : ErrKeep (mrmovq r) := by
  unfold mrmovq
  apply errKeep_bind (okKeep_eat r) (errKeep_eat r); intro byte
  apply errKeep_bind (okKeep_liftReg _) (errKeep_liftReg _); intro ra
  apply errKeep_bind (okKeep_liftReg _) (errKeep_liftReg _); intro rb
  apply errKeep_bind (okKeep_eatImmediate r) (errKeep_eatImmediate r); intro valC
  apply errKeep_bind okKeep_getVm (noErr_errKeep noErr_getVm); intro vmG
  apply errKeep_bind (okKeep_readBlock _) (errKeep_readBlock _); intro valM
  exact noErr_errKeep (noErr_modifyVm _)

/-- Opq errors during decode or with DivisionByZero, both before its
register and flag writes. -/
theorem errKeep_opq (r : Region) (f : OpFun) : ErrKeep (opq r f) := by
  unfold opq
  apply errKeep_bind (okKeep_eat r) (errKeep_eat r); intro byte
  apply errKeep_bind (okKeep_liftReg _) (errKeep_liftReg _); intro ra
  apply errKeep_bind (okKeep_liftReg _) (errKeep_liftReg _); intro rb
  apply errKeep_bind okKeep_getVm (noErr_errKeep noErr_getVm); intro vmG
  dsimp only
  cases opCompute f (vmG.reg_file.registers rb) (vmG.reg_file.registers ra)
  case ok result ovf => exact noErr_errKeep (noErr_modifyVm _)
  case divByZero => exact errKeep_throwE _
  case crash => exact noErr_errKeep noErr_crashM

/-- Jxx errors only while eating the target, before any jump. -/
theorem errKeep_jxx (r : Region) (cond : JCmovFun) : ErrKeep (jxx r cond) := by
  unfold jxx
  apply errKeep_bind (okKeep_eatImmediate r) (errKeep_eatImmediate r); intro destI
  apply errKeep_bind okKeep_getVm (noErr_errKeep noErr_getVm); intro vmG
  split
  · exact noErr_errKeep (noErr_modifyVm _)
  · exact noErr_errKeep (noErr_mpure _)

/-- Call errors while eating the target or in the stack write; the failed
write mutates nothing, and nothing after the write can fail. -/
theorem errKeep_call (r : Region) : ErrKeep (call r) := by
  unfold call
  apply errKeep_bind (okKeep_eatImmediate r) (errKeep_eatImmediate r); intro destI
  apply errKeep_bind okKeep_getVm (noErr_errKeep noErr_getVm); intro vmG
  apply errKeep_bind_noerr (errKeep_writeBlock _ _); intro u
  exact noErr_bind (noErr_modifyVm _) (fun _ => noErr_modifyVm _)

/-- Ret errors only in the stack read, before its writes. -/
theorem errKeep_ret (r : Region) : ErrKeep (ret r) := by
  unfold ret
  apply errKeep_bind okKeep_getVm (noErr_errKeep noErr_getVm); intro vmG
  apply errKeep_bind (okKeep_readBlock _) (errKeep_readBlock _); intro retAddr
  exact noErr_errKeep (noErr_bind (noErr_modifyVm _) (fun _ => noErr_modifyVm _))

/-- Pushq errors during decode or in the stack write, which mutates
nothing when it fails. -/
theorem errKeep_pushq (r : Region) : ErrKeep (pushq r) := by
  unfold pushq
  apply errKeep_bind (okKeep_eat r) (errKeep_eat r); intro byte
  apply errKeep_bind (okKeep_liftReg _) (errKeep_liftReg _); intro ra
  apply errKeep_bind okKeep_getVm (noErr_errKeep noErr_getVm); intro vmG
  apply errKeep_bind_noerr (errKeep_writeBlock _ _); intro u
  exact noErr_modifyVm _

/-- Popq errors during decode or in the stack read, before its writes. -/
theorem errKeep_popq (r : Region) : ErrKeep (popq r) := by
  unfold popq
  apply errKeep_bind (okKeep_eat r) (errKeep_eat r); intro byte
  apply errKeep_bind (okKeep_liftReg _) (errKeep_liftReg _); intro ra
  apply errKeep_bind okKeep_getVm (noErr_errKeep noErr_getVm); intro vmG
  apply errKeep_bind (okKeep_readBlock _) (errKeep_readBlock _); intro valM
  exact noErr_errKeep (noErr_bind (noErr_modifyVm _) (fun _ => noErr_modifyVm _))

/-- One whole task keeps memory, registers, flags and lifecycle state on
every error path. -/
theorem errKeep_runTask (r : Region) : ErrKeep (runTask r) := by
  unfold runTask
  apply errKeep_bind (okKeep_eat r) (errKeep_eat r); intro b
  apply errKeep_bind (okKeep_liftOpc _) (errKeep_liftOpc _); intro opcode
  cases opcode
  case halt => exact errKeep_halt r
  case nop => exact errKeep_nop r
  case rrmovq => exact errKeep_rrmovq r
  case cmovxx cond => exact errKeep_cmovxx r cond
  case irmovq => exact errKeep_irmovq r
  case rmmovq => exact errKeep_rmmovq r
  case mrmovq => exact errKeep_mrmovq r
  case opq f => exact errKeep_opq r f
  case jxx cond => exact errKeep_jxx r cond
  case call => exact errKeep_call r
  case ret => exact errKeep_ret r
  case pushq => exact errKeep_pushq r
  case popq => exact errKeep_popq r


/-! ### Claim C2 -/

/-- C2 counterexample: stepping a fresh machine on the single invalid
opcode byte 255 returns an error, yet the instruction pointer of the
returned machine is 1 while it was 0 before the step, so a state mutation
(the fetch advancing the pointer) has been committed on an error path. -/
theorem step_error_ip_advanced_cex :
    (Vm.new.step [255]).errOf = some (.opcodeError (.invalidOpcode 255))
    ∧ Option.map Vm.ip ((Vm.new.step [255]).finalVm) = some 1
    ∧ Vm.new.ip = 0 := by
  decide

/-- C2 (amended): whenever a step returns an error, the registers, the
condition flags, the memory and the active/halted status all equal their
pre-step values; the instruction pointer, however, is not restored: it may
have advanced past the bytes consumed before the failure (it never moves
backwards). The original claim, which also required the instruction
pointer to be unchanged, is refuted by the counterexample. -/
theorem step_error_preserves_all_but_ip (vm : Vm) (r : Region) (e : Error) (vmB : Vm)
    (h : vm.step r = .err e vmB) :
    vmB.memory = vm.memory ∧ vmB.reg_file = vm.reg_file ∧ vmB.state = vm.state
      ∧ vm.ip ≤ vmB.ip := by
  unfold Vm.step at h
  split at h
  · cases h
    exact keep_refl vm
  · exact errKeep_runTask r vm e vmB h

/-- Witness for the amended C2 on the invalid-opcode counterexample
input. -/
theorem step_error_preserves_all_but_ip_witness :
    ({ Vm.new with ip := 1 } : Vm).memory = Vm.new.memory
    ∧ ({ Vm.new with ip := 1 } : Vm).reg_file = Vm.new.reg_file
    ∧ ({ Vm.new with ip := 1 } : Vm).state = Vm.new.state
    ∧ Vm.new.ip ≤ ({ Vm.new with ip := 1 } : Vm).ip :=
  step_error_preserves_all_but_ip Vm.new [255] (.opcodeError (.invalidOpcode 255))
    { Vm.new with ip := 1 } rfl

/-! ### Claim C1 -/

/-- C1: evaluation of popq into the stack pointer register at the failing
input.  On a fresh machine (rsp = 65528, memory all zero), the bytes
176, 64 encode popq with destination nibble 4, the stack pointer register.
The step succeeds and leaves rsp = 65536, which is the pre-instruction
stack pointer incremented by 8 (the adjusted value), while the word stored
at the pre-instruction stack pointer address is 0: the destination write
happens first and the stack pointer slot is then overwritten with the
incremented value, so popping into rsp yields the adjusted value, not the
stored one. -/
theorem popq_rsp_yields_adjusted_eval :
    (Vm.new.step [176, 64]).isOk = true
    ∧ Option.map (fun vm => vm.reg_file.registers Register.rsp) ((Vm.new.step [176, 64]).finalVm)
        = some 65536
    ∧ Vm.new.memory.read (toU64 (Vm.new.reg_file.registers Register.rsp)) = .ok 0
    ∧ Vm.new.reg_file.registers Register.rsp + 8 = 65536
    ∧ (0 : Int) ≠ 65536 := by
  decide

/-! ### Claim C3 -/

/-- C3 counterexample: the lead byte 103 (0x67, an Opq family byte with
the undefined arithmetic sub-code 7) fails to decode, but the error
payload is the low nibble 7, not the offending byte 103 itself. -/
theorem opcode_subcode_error_payload_cex :
    Opcode.tryFrom 103 = .error (.invalidOpcode 7)
    ∧ Opcode.tryFrom 103 ≠ .error (.invalidOpcode 103) := by
  decide

set_option maxRecDepth 8000 in
/-- C3 (amended): for every lead byte, decoding fails exactly when the
high nibble is outside the defined families (above 0xB) or when the
families 0x2, 0x6 and 0x7 receive a low nibble outside their sub-code
sets; a failure on the high nibble carries the full lead byte in
InvalidOpcode, but a failure on a required sub-code carries only the low
nibble, not the lead byte. -/
theorem opcode_tryFrom_error_characterization :
    ∀ b : Nat, b < 256 →
      ((exceptIsErr (Opcode.tryFrom b) = true) ↔
        (11 < b / 16 ∨ (b / 16 = 2 ∧ 6 < b % 16) ∨ (b / 16 = 6 ∧ 6 < b % 16)
          ∨ (b / 16 = 7 ∧ (b % 16 = 0 ∨ 6 < b % 16))))
      ∧ (11 < b / 16 → Opcode.tryFrom b = .error (.invalidOpcode b))
      ∧ ((b / 16 = 2 ∨ b / 16 = 6 ∨ b / 16 = 7) → exceptIsErr (Opcode.tryFrom b) = true →
          Opcode.tryFrom b = .error (.invalidOpcode (b % 16))) := by
  decide

/-- Witness for the amended C3, applied at the lead byte 103: a sub-code
failure whose payload is the low nibble. -/
theorem opcode_tryFrom_error_characterization_witness :
    Opcode.tryFrom 103 = .error (.invalidOpcode 7) :=
  (opcode_tryFrom_error_characterization 103 (by decide)).2.2 (by decide) (by decide)

/-! ### Claim C10 -/

/-- Machine for the C10 counterexample: the divisor register rax holds -1
and the dividend register rbx holds the smallest i64. -/
def c10vm : Vm :=
  { Vm.new with
      reg_file := (Vm.new.reg_file.setReg Register.rax (-1)).setReg Register.rbx i64Min }

/-- C10 counterexample: divq rax, rbx with divisor -1 (nonzero) and
dividend i64::MIN produces no result at all: the step is the Rust
division-overflow panic outcome, so the operation is not total for every
nonzero divisor. -/
theorem div_min_by_neg_one_crash_cex :
    (c10vm.step [101, 3]).isCrash = true
    ∧ c10vm.reg_file.registers Register.rax = -1
    ∧ (-1 : Int) ≠ 0 := by
  decide

/-- C10 (amended): for every pair of operand values whose divisor is
nonzero, with the single exception of dividend i64::MIN with divisor -1
(where the Rust program panics with a division overflow instead of
producing any outcome), the Div and Mod arithmetic of opq succeeds: the
division-by-zero branch is unreachable and a result is produced. -/
theorem opq_div_mod_total_amended (valB valA : Int) (hA : valA ≠ 0)
    (hx : ¬(valB = i64Min ∧ valA = -1)) :
    (opCompute OpFun.div valB valA).isOk = true
    ∧ (opCompute OpFun.mod valB valA).isOk = true := by
  constructor <;> simp [opCompute, OpOut.isOk, hA, hx]

/-- Witness for the amended C10 at dividend 7 and divisor 2. -/
theorem opq_div_mod_total_amended_witness :
    (opCompute OpFun.div 7 2).isOk = true ∧ (opCompute OpFun.mod 7 2).isOk = true :=
  opq_div_mod_total_amended 7 2 (by decide) (by decide)

end Y86
